import Mathlib

set_option maxHeartbeats 2000000
set_option maxRecDepth 4000

/-!
Shallow embedding of the fridgely-server reference store (FridgeState) and
its generational backup store (ModeFileDB), together with theorems settling
the specification claims.

The FridgeState definitions are translated from the FridgeState class of the
repository (constructor via addToDictionaries and buildDictionaries, addRef,
pushMessage and friends, serialize, deserialize).  JavaScript objects used as
dictionaries are embedded as insertion-ordered association lists, which is
how string-keyed JS records iterate.  The JSON layer (JSON.parse and
JSON.stringify) is external library code; parsing is embedded as an abstract
parse outcome fed to deserialize, and stringification as an executable
renderer of the serialized document.
-/

/-- Message severity levels of the diagnostic log. -/
inductive MsgLevel where
  | WARNING : MsgLevel
  | ERROR : MsgLevel
  deriving DecidableEq, Repr

/-- A stored record: a unique id, a type discriminator and an opaque payload
(the store never looks at the payload beyond carrying it around). -/
structure Referencable where
  id : String
  type : String
  payload : String
  deriving DecidableEq, Repr

/-- A diagnostic log entry, as pushed by pushMessage. -/
structure Diagnostic where
  level : MsgLevel
  message : String
  refIds : Option (List String)
  deriving DecidableEq, Repr

/-- The single supported serialization format version (CURRENT_VERSION = 0). -/
def CURRENT_VERSION : Int := 0

/-- The reference store.  references is the raw ordered sequence handed to the
constructor (plus addRef pushes); refsById and refsByType are the derived
indices, embedded as insertion-ordered association lists. -/
structure FridgeState where
  version : Int
  references : List Referencable
  refsById : List (String × Referencable)
  refsByType : List (String × List Referencable)
  messages : List Diagnostic
  deriving DecidableEq, Repr

/-- Lookup in a JS-object-as-dictionary: first entry with the given key. -/
def assocFind {α : Type} : List (String × α) → String → Option α
  | [], _ => none
  | (k, v) :: rest, key => if k = key then some v else assocFind rest key

/-- Append a reference to the bucket of its type, creating the bucket at the
end of the dictionary when the type key is new (JS object key insertion). -/
def bucketAdd : List (String × List Referencable) → String → Referencable →
    List (String × List Referencable)
  | [], t, r => [(t, [r])]
  | (k, l) :: rest, t, r =>
      if k = t then (k, l ++ [r]) :: rest else (k, l) :: bucketAdd rest t r

/-- pushMessage: append a diagnostic to the log. -/
def FridgeState.pushMessage (st : FridgeState) (level : MsgLevel)
    (message : String) (refIds : Option (List String)) : FridgeState :=
  { st with messages := st.messages ++ [⟨level, message, refIds⟩] }

/-- pushWarning convenience wrapper. -/
def FridgeState.pushWarning (st : FridgeState) (message : String)
    (refIds : Option (List String)) : FridgeState :=
  st.pushMessage MsgLevel.WARNING message refIds

/-- pushError convenience wrapper. -/
def FridgeState.pushError (st : FridgeState) (message : String)
    (refIds : Option (List String)) : FridgeState :=
  st.pushMessage MsgLevel.ERROR message refIds

/-- addToDictionaries: index one reference.  A colliding id appends a
diagnostic (ERROR on differing types, WARNING otherwise) and does not
re-index; a fresh id is recorded in both indices. -/
def FridgeState.addToDictionaries (st : FridgeState) (ref : Referencable) :
    FridgeState :=
  match assocFind st.refsById ref.id with
  | some existing =>
      st.pushMessage (if existing.type ≠ ref.type then MsgLevel.ERROR else MsgLevel.WARNING)
        ("Duplicate ref ids found. types " ++ ref.type ++ ", " ++ existing.type)
        (some [ref.id])
  | none =>
      { st with refsById := st.refsById ++ [(ref.id, ref)],
                refsByType := bucketAdd st.refsByType ref.type ref }

/-- The FridgeState constructor: store the raw sequence and the initial
diagnostics, then buildDictionaries by folding addToDictionaries over the
references in order. -/
def FridgeState.build (version : Int) (references : List Referencable)
    (messages : List Diagnostic) : FridgeState :=
  references.foldl FridgeState.addToDictionaries
    ⟨version, references, [], [], messages⟩

/-- getRefs: the bucket of the given type, or the empty sequence. -/
def FridgeState.getRefs (st : FridgeState) (type : String) : List Referencable :=
  match assocFind st.refsByType type with
  | some l => l
  | none => []

/-- getRef: the indexed reference of the given id, if any. -/
def FridgeState.getRef (st : FridgeState) (id : String) : Option Referencable :=
  assocFind st.refsById id

/-- Result of a mutating FridgeState call: ok with the new store, or err with
the thrown message and the store as it stood when the throw happened. -/
inductive MutRes where
  | ok : FridgeState → MutRes
  | err : String → FridgeState → MutRes
  deriving DecidableEq, Repr

/-- addRef: throw on a duplicate id (before touching anything), otherwise push
onto the raw sequence and index via addToDictionaries. -/
def FridgeState.addRef (st : FridgeState) (ref : Referencable) : MutRes :=
  if (assocFind st.refsById ref.id).isSome then
    MutRes.err ("Can\x27t add ref to fridge state - ID matches existing ref. " ++ ref.id) st
  else
    MutRes.ok (FridgeState.addToDictionaries
      { st with references := st.references ++ [ref] } ref)

/-- The serialized document: the shape JSON.stringify receives in serialize. -/
structure SerializedFridgeState where
  version : Int
  references : List Referencable
  messages : List Diagnostic
  deriving DecidableEq, Repr

/-- serialize: version is CURRENT_VERSION, references are the values of the
id-index (first occurrence per id, first-seen order), messages is the full
diagnostic log. -/
def FridgeState.serialize (st : FridgeState) : SerializedFridgeState :=
  ⟨CURRENT_VERSION, st.refsById.map Prod.snd, st.messages⟩

/-- Render a severity level. -/
def renderLevel : MsgLevel → String
  | MsgLevel.WARNING => "WARNING"
  | MsgLevel.ERROR => "ERROR"

/-- Render the optional refIds field of a diagnostic. -/
def renderRefIds : Option (List String) → String
  | none => ""
  | some ids =>
      ",\"refIds\":[" ++ String.intercalate "," (ids.map (fun i => "\"" ++ i ++ "\"")) ++ "]"

/-- Render one reference. -/
def renderRef (r : Referencable) : String :=
  "\x7b\"id\":\"" ++ r.id ++ "\",\"type\":\"" ++ r.type ++ "\"" ++ r.payload ++ "\x7d"

/-- Render one diagnostic. -/
def renderDiag (d : Diagnostic) : String :=
  "\x7b\"level\":\"" ++ renderLevel d.level ++ "\",\"message\":\"" ++ d.message ++ "\""
    ++ renderRefIds d.refIds ++ "\x7d"

/-- Executable embedding of JSON.stringify on the serialized document. -/
def renderDoc (doc : SerializedFridgeState) : String :=
  "\x7b\"version\":" ++ toString doc.version ++ ",\"references\":["
    ++ String.intercalate "," (doc.references.map renderRef) ++ "],\"messages\":["
    ++ String.intercalate "," (doc.messages.map renderDiag) ++ "]\x7d"

/-- serialize all the way to the on-disk text. -/
def serializeString (st : FridgeState) : String := renderDoc st.serialize

/-- The destructured result of a successful JSON.parse, as deserialize reads
it: each field is none when missing from the parsed value (or, for
references, not an iterable sequence; for messages, not an array). -/
structure ParsedDoc where
  version : Option Int
  references : Option (List Referencable)
  messages : Option (List Diagnostic)
  deriving DecidableEq, Repr

/-- Outcome of JSON.parse on the input text: a parse exception with its
detail text, or a parsed document. -/
inductive ParseOutcome where
  | fail : String → ParseOutcome
  | parsed : ParsedDoc → ParseOutcome
  deriving DecidableEq, Repr

/-- JS string interpolation of the version field (undefined when missing). -/
def versionText : Option Int → String
  | none => "undefined"
  | some n => toString n

/-- deserialize, over the outcome of the external JSON.parse on the input
text.  Parse failure and version mismatch produce a fresh empty store plus
two ERROR diagnostics; a missing messages array keeps the references and adds
two WARNING diagnostics; otherwise the store is rebuilt from the parsed
fields.  When the constructor is reached with a missing (non-iterable)
references field, its for-of loop throws a TypeError, embedded here as the
error branch. -/
def FridgeState.deserialize (serialized : String) (outcome : ParseOutcome) :
    Except String FridgeState :=
  match outcome with
  | ParseOutcome.fail detail =>
      Except.ok (((FridgeState.build CURRENT_VERSION [] []).pushError
        ("Error parsing FridgeState string: " ++ detail) none).pushError serialized none)
  | ParseOutcome.parsed doc =>
      if doc.version ≠ some CURRENT_VERSION then
        Except.ok (((FridgeState.build CURRENT_VERSION [] []).pushError
          ("Unuspported version number in serialized FridgeState. Supported:"
            ++ toString CURRENT_VERSION ++ " Found:" ++ versionText doc.version) none).pushError
          serialized none)
      else
        match doc.messages with
        | none =>
            match doc.references with
            | none => Except.error "TypeError: references is not iterable"
            | some references =>
                Except.ok (((FridgeState.build CURRENT_VERSION references []).pushWarning
                  "deserialize passed string-object that is missing the messages array" none).pushWarning
                  serialized none)
        | some messages =>
            match doc.references with
            | none => Except.error "TypeError: references is not iterable"
            | some references =>
                Except.ok (FridgeState.build CURRENT_VERSION references messages)

/-- Embedding of the JSON layer round trip: JSON.parse of JSON.stringify of a
well-formed serialized document destructures to its three fields. -/
def parseOf (doc : SerializedFridgeState) : ParsedDoc :=
  ⟨some doc.version, some doc.references, some doc.messages⟩

/-- Boolean success test for a deserialize result. -/
def exceptOk : Except String FridgeState → Bool
  | Except.ok _ => true
  | Except.error _ => false

/-- A file system snapshot: file contents by path, plus the set of created
directories.  Paths are embedded as the syntactic joins path.resolve builds. -/
structure FS where
  files : String → Option String
  dirs : String → Bool

/-- The file system with no files and no directories (an empty target). -/
def emptyFS : FS := ⟨fun _ => none, fun _ => false⟩

/-- Result of a sequence of file-system operations: ok with a value, or err
with the thrown message; both carry the file system as it stands at that
point (a throw leaves all completed operations on disk). -/
inductive FsResult (α : Type) where
  | ok : α → FS → FsResult α
  | err : String → FS → FsResult α

/-- The file system carried by a result, whether ok or err. -/
def FsResult.state {α : Type} : FsResult α → FS
  | FsResult.ok _ fs => fs
  | FsResult.err _ fs => fs

/-- Whether the result is a success. -/
def FsResult.isOk {α : Type} : FsResult α → Bool
  | FsResult.ok _ _ => true
  | FsResult.err _ _ => false

/-- fileExists. -/
def FS.hasFile (fs : FS) (p : String) : Bool := (fs.files p).isSome

/-- writeFile: create or overwrite. -/
def FS.writeF (fs : FS) (p c : String) : FS :=
  ⟨fun q => if q = p then some c else fs.files q, fs.dirs⟩

/-- mkdir with recursive true, embedded as recording the target directory. -/
def FS.mkdirRec (fs : FS) (p : String) : FS :=
  ⟨fs.files, fun q => if q = p then true else fs.dirs q⟩

/-- rename: move src onto dst (overwriting dst); throws ENOENT when src is
missing. -/
def FS.renameF (fs : FS) (src dst : String) : FsResult Unit :=
  match fs.files src with
  | none => FsResult.err ("ENOENT: rename " ++ src) fs
  | some c =>
      FsResult.ok ()
        ⟨fun q => if q = dst then some c else if q = src then none else fs.files q, fs.dirs⟩

/-- copyFile: copy src onto dst (overwriting dst); throws when src missing. -/
def FS.copyF (fs : FS) (src dst : String) : FsResult Unit :=
  match fs.files src with
  | none => FsResult.err ("ENOENT: copyfile " ++ src) fs
  | some c => FsResult.ok () (fs.writeF dst c)

/-- The fully resolved options of a ModeFileDB instance (defaults merged with
the caller overrides). -/
structure ModelDBOptions where
  dbFileName : String
  localBackupCount : Nat
  baseFolder : String
  backupsFolderName : String
  deriving DecidableEq, Repr

/-- The defaults merge of MODEL_DB_DEFAULTS with only the required dbFileName
given, as the command-line entry points construct it. -/
def mkOptions (dbFileName : String) : ModelDBOptions :=
  ⟨dbFileName, 3, "./localdb/default", "backups"⟩

/-- path.resolve of two segments, embedded as the syntactic join. -/
def joinP (a b : String) : String := a ++ "/" ++ b

/-- Index (counted from the end is not needed: position from the start) of the
last extension separator of a file name, over its character list. -/
def lastDotIdx : List Char → Option Nat
  | [] => none
  | c :: rest =>
      match lastDotIdx rest with
      | some i => some (i + 1)
      | none => if c = '.' then some 0 else none

/-- Split a file name at its last extension separator: stem and extension
(the extension keeps the separator), or none when there is no separator. -/
def lastDotSplit (s : String) : Option (String × String) :=
  match lastDotIdx s.data with
  | none => none
  | some i => some (⟨s.data.take i⟩, ⟨s.data.drop i⟩)

namespace ModeFileDB

/-- getModelFilePath: the primary file path. -/
def getModelFilePath (o : ModelDBOptions) : String :=
  joinP o.baseFolder o.dbFileName

/-- getModelFileNameParts: stem and extension of the configured file name;
throws on a name without an extension separator. -/
def getModelFileNameParts (o : ModelDBOptions) : Except String (String × String) :=
  match lastDotSplit o.dbFileName with
  | none => Except.error ("BAD BACKUP FILE NAME " ++ o.dbFileName)
  | some parts => Except.ok parts

/-- getModelBackupFilePath with no index: the latest-backup path. -/
def getModelBackupFilePathBase (o : ModelDBOptions) : String :=
  joinP (joinP o.baseFolder o.backupsFolderName) o.dbFileName

/-- getModelBackupFilePath with a backup index: the generation path, derived
from the stem and extension. -/
def getModelBackupFilePathIdx (o : ModelDBOptions) (backupIndex : Nat) :
    Except String String :=
  match getModelFileNameParts o with
  | Except.error e => Except.error e
  | Except.ok parts =>
      Except.ok (joinP (joinP o.baseFolder o.backupsFolderName)
        (parts.1 ++ "_" ++ toString backupIndex ++ parts.2))

/-- The descending loop indices of shiftBackupFiles: count-1 down to 1. -/
def downIdx (n : Nat) : List Nat := (List.range' 1 (n - 1)).reverse

/-- The rename loop of shiftBackupFiles: for each index i, rename generation
i-1 onto generation i when generation i-1 exists. -/
def shiftLoop (o : ModelDBOptions) : List Nat → FS → FsResult Unit
  | [], fs => FsResult.ok () fs
  | i :: rest, fs =>
      match getModelBackupFilePathIdx o (i - 1) with
      | Except.error e => FsResult.err e fs
      | Except.ok newerFilePath =>
          match getModelBackupFilePathIdx o i with
          | Except.error e => FsResult.err e fs
          | Except.ok olderFilePath =>
              if fs.hasFile newerFilePath then
                match fs.renameF newerFilePath olderFilePath with
                | FsResult.ok _ fs2 => shiftLoop o rest fs2
                | FsResult.err e fs2 => FsResult.err e fs2
              else shiftLoop o rest fs

/-- shiftBackupFiles: require the latest backup, run the rename loop from
count-1 down to 1, then copy the latest backup onto generation 0. -/
def shiftBackupFiles (o : ModelDBOptions) (fs : FS) : FsResult Unit :=
  let baseBackupFilePath := getModelBackupFilePathBase o
  if !fs.hasFile baseBackupFilePath then
    FsResult.err ("Can\x27t shift backups because base backup doesn\x27t exist! "
      ++ baseBackupFilePath) fs
  else
    match shiftLoop o (downIdx o.localBackupCount) fs with
    | FsResult.err e fs2 => FsResult.err e fs2
    | FsResult.ok _ fs2 =>
        if o.localBackupCount > 0 then
          match getModelBackupFilePathIdx o 0 with
          | Except.error e => FsResult.err e fs2
          | Except.ok g0 => fs2.copyF baseBackupFilePath g0
        else FsResult.ok () fs2

/-- create: refuse when the primary exists; otherwise make the backup
directory, serialize a fresh empty store, write it to the latest-backup path,
shift the backups, and write it to the primary path. -/
def create (o : ModelDBOptions) (fs : FS) : FsResult FridgeState :=
  let dbPath := getModelFilePath o
  if fs.hasFile dbPath then
    FsResult.err ("CANT CREATE DB at " ++ dbPath ++ "! ALREADY EXISTS") fs
  else
    let backupPath := getModelBackupFilePathBase o
    let fs1 := fs.mkdirRec (joinP o.baseFolder o.backupsFolderName)
    let newModel := FridgeState.build CURRENT_VERSION [] []
    let content := serializeString newModel
    let fs2 := fs1.writeF backupPath content
    match shiftBackupFiles o fs2 with
    | FsResult.err e fs3 => FsResult.err e fs3
    | FsResult.ok _ fs3 => FsResult.ok newModel (fs3.writeF dbPath content)

/-- write: require the latest backup, serialize the store, overwrite the
latest backup, shift the backups, overwrite the primary. -/
def write (o : ModelDBOptions) (model : FridgeState) (fs : FS) : FsResult Unit :=
  let baseBackupFilePath := getModelBackupFilePathBase o
  if !fs.hasFile baseBackupFilePath then
    FsResult.err ("Can\x27t perform backup because previous base backup doesn\x27t exist! "
      ++ baseBackupFilePath) fs
  else
    let content := serializeString model
    let fs1 := fs.writeF baseBackupFilePath content
    match shiftBackupFiles o fs1 with
    | FsResult.err e fs2 => FsResult.err e fs2
    | FsResult.ok _ fs2 => FsResult.ok () (fs2.writeF (getModelFilePath o) content)

end ModeFileDB

/-- Run a list of write calls in order, stopping at the first throw. -/
def runWrites (o : ModelDBOptions) : List FridgeState → FS → FsResult Unit
  | [], fs => FsResult.ok () fs
  | s :: rest, fs =>
      match ModeFileDB.write o s fs with
      | FsResult.ok _ fs2 => runWrites o rest fs2
      | FsResult.err e fs2 => FsResult.err e fs2

/-- The end-to-end scenario: create on an empty target directory, then the
given write calls in order. -/
def createThenWrites (o : ModelDBOptions) (ss : List FridgeState) : FsResult Unit :=
  match ModeFileDB.create o emptyFS with
  | FsResult.ok _ fs2 => runWrites o ss fs2
  | FsResult.err e fs2 => FsResult.err e fs2

/-- The concrete default configuration used by the end-to-end claims. -/
def oD : ModelDBOptions := mkOptions "default.json"

/-- Primary path of the default configuration. -/
def pPrim : String := ModeFileDB.getModelFilePath oD

/-- Latest-backup path of the default configuration. -/
def pLatest : String := ModeFileDB.getModelBackupFilePathBase oD

/-- Generation path of the default configuration. -/
def pGen (i : Nat) : String :=
  joinP (joinP oD.baseFolder oD.backupsFolderName) ("default" ++ "_" ++ toString i ++ ".json")

/-- Entries a list of references contributes to the id-index when none of
them collides. -/
def entriesOf (l : List Referencable) : List (String × Referencable) :=
  l.map (fun r => (r.id, r))

lemma assocFind_append {α : Type} (xs ys : List (String × α)) (k : String) :
    assocFind (xs ++ ys) k =
      match assocFind xs k with
      | some v => some v
      | none => assocFind ys k := by
  induction xs with
  | nil => rfl
  | cons e rest ih =>
      rcases e with ⟨k0, v0⟩
      by_cases hk : k0 = k
      · simp [assocFind, hk]
      · simp [assocFind, hk, ih]

lemma assocFind_eq_none {α : Type} (xs : List (String × α)) (k : String) :
    assocFind xs k = none ↔ k ∉ xs.map Prod.fst := by
  induction xs with
  | nil => simp [assocFind]
  | cons e rest ih =>
      rcases e with ⟨k0, v0⟩
      by_cases hk : k0 = k
      · simp [assocFind, hk]
      · simp [assocFind, hk, ih]
        intro h
        exact fun hc => hk hc.symm

lemma addToDictionaries_hit (st : FridgeState) (r existing : Referencable)
    (h : assocFind st.refsById r.id = some existing) :
    st.addToDictionaries r =
      st.pushMessage (if existing.type ≠ r.type then MsgLevel.ERROR else MsgLevel.WARNING)
        ("Duplicate ref ids found. types " ++ r.type ++ ", " ++ existing.type)
        (some [r.id]) := by
  unfold FridgeState.addToDictionaries
  rw [h]

lemma addToDictionaries_miss (st : FridgeState) (r : Referencable)
    (h : assocFind st.refsById r.id = none) :
    st.addToDictionaries r =
      { st with refsById := st.refsById ++ [(r.id, r)],
                refsByType := bucketAdd st.refsByType r.type r } := by
  unfold FridgeState.addToDictionaries
  rw [h]

lemma foldl_add_noHit : ∀ (l : List Referencable) (st : FridgeState),
    (l.map Referencable.id).Nodup →
    (∀ r ∈ l, assocFind st.refsById r.id = none) →
    (l.foldl FridgeState.addToDictionaries st).refsById = st.refsById ++ entriesOf l ∧
    (l.foldl FridgeState.addToDictionaries st).messages = st.messages := by
  intro l
  induction l with
  | nil => intro st _ _; simp [entriesOf]
  | cons r rest ih =>
      intro st hnd hmiss
      have hr : assocFind st.refsById r.id = none := hmiss r (List.mem_cons_self r rest)
      have hstep := addToDictionaries_miss st r hr
      rw [List.foldl_cons, hstep]
      have hnd' : (rest.map Referencable.id).Nodup := (List.nodup_cons.mp hnd).2
      have hfresh : r.id ∉ rest.map Referencable.id := (List.nodup_cons.mp hnd).1
      have hmiss' : ∀ r2 ∈ rest,
          assocFind (st.refsById ++ [(r.id, r)]) r2.id = none := by
        intro r2 hr2
        rw [assocFind_append]
        rw [hmiss r2 (List.mem_cons_of_mem r hr2)]
        have hne : r.id ≠ r2.id := by
          intro hc
          exact hfresh (hc ▸ List.mem_map_of_mem Referencable.id hr2)
        simp [assocFind, hne]
      have := ih { st with refsById := st.refsById ++ [(r.id, r)],
                           refsByType := bucketAdd st.refsByType r.type r } hnd' hmiss'
      rcases this with ⟨h1, h2⟩
      constructor
      · rw [h1]
        simp [entriesOf, List.append_assoc]
      · rw [h2]

lemma foldl_add_version : ∀ (l : List Referencable) (st : FridgeState),
    (l.foldl FridgeState.addToDictionaries st).version = st.version := by
  intro l
  induction l with
  | nil => intro st; rfl
  | cons r rest ih =>
      intro st
      rw [List.foldl_cons, ih]
      cases h : assocFind st.refsById r.id with
      | some existing => rw [addToDictionaries_hit st r existing h]; rfl
      | none => rw [addToDictionaries_miss st r h]

lemma foldl_add_withVersion : ∀ (l : List Referencable) (st : FridgeState) (v : Int),
    l.foldl FridgeState.addToDictionaries { st with version := v } =
      { l.foldl FridgeState.addToDictionaries st with version := v } := by
  intro l
  induction l with
  | nil => intro st v; rfl
  | cons r rest ih =>
      intro st v
      rw [List.foldl_cons, List.foldl_cons]
      have hstep : FridgeState.addToDictionaries { st with version := v } r =
          { st.addToDictionaries r with version := v } := by
        cases h : assocFind st.refsById r.id with
        | some existing =>
            rw [addToDictionaries_hit st r existing h]
            rw [addToDictionaries_hit { st with version := v } r existing h]
            rfl
        | none =>
            rw [addToDictionaries_miss st r h]
            rw [addToDictionaries_miss { st with version := v } r h]
      rw [hstep, ih]

lemma assocFind_entriesOf_mem (l : List Referencable) (r : Referencable)
    (hnd : (l.map Referencable.id).Nodup) (hmem : r ∈ l) :
    assocFind (entriesOf l) r.id = some r := by
  induction l with
  | nil => cases hmem
  | cons x rest ih =>
      rcases List.mem_cons.mp hmem with hx | hrest
      · subst hx
        simp [entriesOf, assocFind]
      · have hx_ne : x.id ≠ r.id := by
          intro hc
          exact (List.nodup_cons.mp hnd).1 (hc ▸ List.mem_map_of_mem Referencable.id hrest)
        simp only [entriesOf, List.map_cons, assocFind, if_neg hx_ne]
        exact ih (List.nodup_cons.mp hnd).2 hrest

/-- Modelled from the spec: the first-occurrence-only subsequence of a
reference sequence, one reference per id, in first-seen order.  Used as the
specification-side description the serialize output is compared against. -/
def firstOccAux (seen : List String) : List Referencable → List Referencable
  | [] => []
  | r :: rest =>
      if r.id ∈ seen then firstOccAux seen rest
      else r :: firstOccAux (seen ++ [r.id]) rest

/-- Modelled from the spec: first occurrences with nothing seen yet. -/
def firstOccurrences (l : List Referencable) : List Referencable := firstOccAux [] l

lemma foldl_add_values : ∀ (l : List Referencable) (st : FridgeState),
    ((l.foldl FridgeState.addToDictionaries st).refsById).map Prod.snd =
      (st.refsById.map Prod.snd) ++ firstOccAux (st.refsById.map Prod.fst) l := by
  intro l
  induction l with
  | nil => intro st; simp [firstOccAux]
  | cons r rest ih =>
      intro st
      rw [List.foldl_cons]
      cases h : assocFind st.refsById r.id with
      | some existing =>
          have hmem : r.id ∈ st.refsById.map Prod.fst := by
            by_contra hc
            rw [(assocFind_eq_none st.refsById r.id).mpr hc] at h
            cases h
          rw [addToDictionaries_hit st r existing h]
          rw [firstOccAux, if_pos hmem]
          exact ih (st.pushMessage _ _ _)
      | none =>
          have hmem : r.id ∉ st.refsById.map Prod.fst :=
            (assocFind_eq_none st.refsById r.id).mp h
          rw [addToDictionaries_miss st r h]
          rw [firstOccAux, if_neg hmem]
          have := ih { st with refsById := st.refsById ++ [(r.id, r)],
                               refsByType := bucketAdd st.refsByType r.type r }
          simp only [List.map_append] at this
          simp only [this]
          simp

lemma entriesOf_keys (l : List Referencable) :
    (entriesOf l).map Prod.fst = l.map Referencable.id := by
  simp [entriesOf, List.map_map]

lemma entriesOf_append (x y : List Referencable) :
    entriesOf (x ++ y) = entriesOf x ++ entriesOf y := by
  simp [entriesOf]

/-- C4: addRef on an id already present in the id-index throws the duplicate
id error before any mutation, leaving the raw sequence, both indices and the
diagnostic log exactly as they were. -/
theorem addRef_duplicate_fails_unchanged (st : FridgeState) (ref r0 : Referencable)
    (h : assocFind st.refsById ref.id = some r0) :
    FridgeState.addRef st ref =
      MutRes.err ("Can\x27t add ref to fridge state - ID matches existing ref. " ++ ref.id) st := by
  unfold FridgeState.addRef
  rw [h]
  rfl

/-- C4 witness at a concrete store and reference. -/
theorem addRef_duplicate_fails_unchanged_witness :
    FridgeState.addRef (FridgeState.build 0 [⟨"a", "t", ""⟩] []) ⟨"a", "u", ""⟩ =
      MutRes.err ("Can\x27t add ref to fridge state - ID matches existing ref. " ++ "a")
        (FridgeState.build 0 [⟨"a", "t", ""⟩] []) :=
  addRef_duplicate_fails_unchanged (FridgeState.build 0 [⟨"a", "t", ""⟩] []) ⟨"a", "u", ""⟩
    ⟨"a", "t", ""⟩ rfl

/-- C9: every store deserialize returns carries CURRENT_VERSION, whatever the
input parsed to. -/
theorem deserialize_version_normalized (serialized : String) (outcome : ParseOutcome)
    (st : FridgeState) (h : FridgeState.deserialize serialized outcome = Except.ok st) :
    st.version = CURRENT_VERSION := by
  cases outcome with
  | fail detail =>
      simp only [FridgeState.deserialize, Except.ok.injEq] at h
      rw [← h]
      rfl
  | parsed doc =>
      rcases doc with ⟨dv, dr, dm⟩
      by_cases hv : dv ≠ some CURRENT_VERSION
      · simp only [FridgeState.deserialize, if_pos hv, Except.ok.injEq] at h
        rw [← h]
        rfl
      · simp only [FridgeState.deserialize, if_neg hv] at h
        cases dm with
        | none =>
            cases dr with
            | none => cases h
            | some refs =>
                simp only [Except.ok.injEq] at h
                rw [← h]
                simp only [FridgeState.pushWarning, FridgeState.pushMessage]
                unfold FridgeState.build
                rw [foldl_add_version]
        | some msgs =>
            cases dr with
            | none => cases h
            | some refs =>
                simp only [Except.ok.injEq] at h
                rw [← h]
                unfold FridgeState.build
                rw [foldl_add_version]

/-- C9 witness at a concrete failed parse. -/
theorem deserialize_version_normalized_witness :
    (((FridgeState.build CURRENT_VERSION [] []).pushError
      ("Error parsing FridgeState string: " ++ "bad token") none).pushError "xyz" none).version =
      CURRENT_VERSION :=
  deserialize_version_normalized "xyz" (ParseOutcome.fail "bad token") _ rfl

/-- C8: serialize emits the current format version, exactly the
first-occurrence-per-id references in first-seen order, and the full
diagnostic log; raw duplicates are omitted. -/
theorem serialize_first_occurrences (v : Int) (refs : List Referencable)
    (m0 : List Diagnostic) :
    FridgeState.serialize (FridgeState.build v refs m0) =
      ⟨CURRENT_VERSION, firstOccurrences refs, (FridgeState.build v refs m0).messages⟩ := by
  have h := foldl_add_values refs ⟨v, refs, [], [], m0⟩
  simp only [List.map_nil, List.nil_append] at h
  unfold FridgeState.serialize FridgeState.build firstOccurrences
  rw [h]

/-- C3: deserializing the serialization of a store built from a duplicate-free
reference sequence yields the store rebuilt at the current version, whose
id-index, type-index and diagnostic log all equal the original ones. -/
theorem deserialize_serialize_roundtrip (raw : String) (v : Int)
    (refs : List Referencable) (msgs : List Diagnostic)
    (hnd : (refs.map Referencable.id).Nodup) :
    FridgeState.deserialize raw
        (ParseOutcome.parsed (parseOf (FridgeState.serialize (FridgeState.build v refs msgs)))) =
      Except.ok (FridgeState.build CURRENT_VERSION refs msgs) ∧
    (FridgeState.build CURRENT_VERSION refs msgs).refsById =
      (FridgeState.build v refs msgs).refsById ∧
    (FridgeState.build CURRENT_VERSION refs msgs).refsByType =
      (FridgeState.build v refs msgs).refsByType ∧
    (FridgeState.build CURRENT_VERSION refs msgs).messages =
      (FridgeState.build v refs msgs).messages := by
  have hB : FridgeState.build v refs msgs =
      { FridgeState.build CURRENT_VERSION refs msgs with version := v } := by
    unfold FridgeState.build
    exact foldl_add_withVersion refs ⟨CURRENT_VERSION, refs, [], [], msgs⟩ v
  have hph := foldl_add_noHit refs ⟨v, refs, [], [], msgs⟩ hnd (fun r _ => rfl)
  have h1 : (FridgeState.build v refs msgs).refsById = entriesOf refs := by
    unfold FridgeState.build
    rw [hph.1]
    simp
  have h2 : (FridgeState.build v refs msgs).messages = msgs := by
    unfold FridgeState.build
    rw [hph.2]
  have hser : FridgeState.serialize (FridgeState.build v refs msgs) =
      ⟨CURRENT_VERSION, refs, msgs⟩ := by
    unfold FridgeState.serialize
    rw [h1, h2]
    have hfun : (Prod.snd ∘ fun r : Referencable => (r.id, r)) = id := funext (fun r => rfl)
    simp only [entriesOf, List.map_map, hfun, List.map_id]
  refine ⟨?_, ?_, ?_, ?_⟩
  · rw [hser]
    simp [FridgeState.deserialize, parseOf]
  · rw [hB]
  · rw [hB]
  · rw [hB]

/-- C3 witness at a concrete duplicate-free store. -/
theorem deserialize_serialize_roundtrip_witness :
    FridgeState.deserialize "orig"
        (ParseOutcome.parsed (parseOf (FridgeState.serialize
          (FridgeState.build 7 [⟨"a", "t", ""⟩, ⟨"b", "u", ""⟩] [⟨MsgLevel.WARNING, "w", none⟩])))) =
      Except.ok (FridgeState.build CURRENT_VERSION [⟨"a", "t", ""⟩, ⟨"b", "u", ""⟩]
        [⟨MsgLevel.WARNING, "w", none⟩]) ∧
    (FridgeState.build CURRENT_VERSION [⟨"a", "t", ""⟩, ⟨"b", "u", ""⟩]
        [⟨MsgLevel.WARNING, "w", none⟩]).refsById =
      (FridgeState.build 7 [⟨"a", "t", ""⟩, ⟨"b", "u", ""⟩]
        [⟨MsgLevel.WARNING, "w", none⟩]).refsById ∧
    (FridgeState.build CURRENT_VERSION [⟨"a", "t", ""⟩, ⟨"b", "u", ""⟩]
        [⟨MsgLevel.WARNING, "w", none⟩]).refsByType =
      (FridgeState.build 7 [⟨"a", "t", ""⟩, ⟨"b", "u", ""⟩]
        [⟨MsgLevel.WARNING, "w", none⟩]).refsByType ∧
    (FridgeState.build CURRENT_VERSION [⟨"a", "t", ""⟩, ⟨"b", "u", ""⟩]
        [⟨MsgLevel.WARNING, "w", none⟩]).messages =
      (FridgeState.build 7 [⟨"a", "t", ""⟩, ⟨"b", "u", ""⟩]
        [⟨MsgLevel.WARNING, "w", none⟩]).messages :=
  deserialize_serialize_roundtrip "orig" 7 [⟨"a", "t", ""⟩, ⟨"b", "u", ""⟩]
    [⟨MsgLevel.WARNING, "w", none⟩] (by decide)

/-- C5: a sequence whose only id collision is one pair r1, r2 (r2 after r1)
produces exactly one appended diagnostic of the right severity, and indexes
every reference except r2. -/
theorem build_single_duplicate (v : Int) (m0 : List Diagnostic)
    (a b c : List Referencable) (r1 r2 : Referencable)
    (hid : r2.id = r1.id)
    (hnd : (((a ++ r1 :: b) ++ c).map Referencable.id).Nodup) :
    (FridgeState.build v (a ++ r1 :: b ++ r2 :: c) m0).messages =
      m0 ++ [⟨if r1.type ≠ r2.type then MsgLevel.ERROR else MsgLevel.WARNING,
              "Duplicate ref ids found. types " ++ r2.type ++ ", " ++ r1.type,
              some [r2.id]⟩] ∧
    (FridgeState.build v (a ++ r1 :: b ++ r2 :: c) m0).refsById =
      entriesOf ((a ++ r1 :: b) ++ c) := by
  have hmap : ((a ++ r1 :: b) ++ c).map Referencable.id =
      (a ++ r1 :: b).map Referencable.id ++ c.map Referencable.id := List.map_append _ _ _
  rw [hmap] at hnd
  rcases List.nodup_append.mp hnd with ⟨hnd1, hnd2, hdisj⟩
  have hsplit : a ++ r1 :: b ++ r2 :: c = (a ++ r1 :: b) ++ r2 :: c := by
    simp [List.append_assoc]
  unfold FridgeState.build
  rw [hsplit, List.foldl_append]
  have hph1 := foldl_add_noHit (a ++ r1 :: b)
    ⟨v, (a ++ r1 :: b) ++ r2 :: c, [], [], m0⟩ hnd1 (fun r _ => rfl)
  rcases hph1 with ⟨h1, h2⟩
  simp only [List.nil_append] at h1
  have hfind : assocFind
      ((a ++ r1 :: b).foldl FridgeState.addToDictionaries
        ⟨v, (a ++ r1 :: b) ++ r2 :: c, [], [], m0⟩).refsById r2.id = some r1 := by
    rw [h1, hid]
    exact assocFind_entriesOf_mem (a ++ r1 :: b) r1 hnd1
      (List.mem_append_right a (List.mem_cons_self r1 b))
  rw [List.foldl_cons]
  rw [addToDictionaries_hit _ r2 r1 hfind]
  have hph3 := foldl_add_noHit c
    (((a ++ r1 :: b).foldl FridgeState.addToDictionaries
        ⟨v, (a ++ r1 :: b) ++ r2 :: c, [], [], m0⟩).pushMessage
      (if r1.type ≠ r2.type then MsgLevel.ERROR else MsgLevel.WARNING)
      ("Duplicate ref ids found. types " ++ r2.type ++ ", " ++ r1.type)
      (some [r2.id])) hnd2 ?hmiss
  case hmiss =>
    intro r hr
    have hkey : r.id ∉ ((a ++ r1 :: b).map Referencable.id) := by
      intro hcontra
      exact hdisj hcontra (List.mem_map_of_mem Referencable.id hr)
    apply (assocFind_eq_none _ _).mpr
    simp only [FridgeState.pushMessage]
    rw [h1, entriesOf_keys]
    exact hkey
  rcases hph3 with ⟨h3, h4⟩
  constructor
  · rw [h4]
    simp only [FridgeState.pushMessage]
    rw [h2]
  · rw [h3]
    simp only [FridgeState.pushMessage]
    rw [h1]
    simp [entriesOf, List.append_assoc]

/-- C5 witness at a pair of same-id different-type references. -/
theorem build_single_duplicate_witness :
    (FridgeState.build 0 ([] ++ ⟨"x", "T1", "p"⟩ :: [] ++ ⟨"x", "T2", "q"⟩ :: []) []).messages =
      [] ++ [⟨if ("T1" : String) ≠ "T2" then MsgLevel.ERROR else MsgLevel.WARNING,
              "Duplicate ref ids found. types " ++ "T2" ++ ", " ++ "T1",
              some ["x"]⟩] ∧
    (FridgeState.build 0 ([] ++ ⟨"x", "T1", "p"⟩ :: [] ++ ⟨"x", "T2", "q"⟩ :: []) []).refsById =
      entriesOf (([] ++ ⟨"x", "T1", "p"⟩ :: []) ++ []) :=
  build_single_duplicate 0 [] [] [] [] ⟨"x", "T1", "p"⟩ ⟨"x", "T2", "q"⟩ rfl (by decide)

/-- C6 counterexample: a document that parses with the current version but no
iterable references field makes the constructor for-of loop throw, so
deserialize aborts instead of returning a store. -/
theorem deserialize_missing_references_throws :
    FridgeState.deserialize "\x7b\"version\":0\x7d"
        (ParseOutcome.parsed ⟨some CURRENT_VERSION, none, none⟩) =
      Except.error "TypeError: references is not iterable" := rfl

/-- C6 amended: deserialize returns a usable store for every input whose
parse outcome, when it parses at the current version, carries an iterable
references field; parse failures, version mismatches, duplicate ids and a
missing messages array never abort the load. -/
theorem deserialize_total_when_references_present (raw : String) (outcome : ParseOutcome)
    (h : ∀ doc, outcome = ParseOutcome.parsed doc →
      doc.version = some CURRENT_VERSION → doc.references ≠ none) :
    exceptOk (FridgeState.deserialize raw outcome) = true := by
  cases outcome with
  | fail detail => rfl
  | parsed doc =>
      rcases doc with ⟨dv, dr, dm⟩
      by_cases hv : dv = some CURRENT_VERSION
      · have hr : dr ≠ none := h ⟨dv, dr, dm⟩ rfl hv
        cases dr with
        | none => exact absurd rfl hr
        | some refs =>
            subst hv
            cases dm with
            | none => rfl
            | some msgs => rfl
      · simp [FridgeState.deserialize, exceptOk, hv]

/-- C6 witness at a concrete parse failure. -/
theorem deserialize_total_when_references_present_witness :
    exceptOk (FridgeState.deserialize "not json" (ParseOutcome.fail "Unexpected token")) = true :=
  deserialize_total_when_references_present "not json" (ParseOutcome.fail "Unexpected token")
    (fun _ hd => nomatch hd)

/-- C7: write before any create (no latest-backup file) throws and leaves the
file system untouched: no primary, latest or generation file is created or
modified. -/
theorem write_without_backup_chain_fails (o : ModelDBOptions) (model : FridgeState) (fs : FS)
    (h : fs.hasFile (ModeFileDB.getModelBackupFilePathBase o) = false) :
    ModeFileDB.write o model fs =
      FsResult.err ("Can\x27t perform backup because previous base backup doesn\x27t exist! "
        ++ ModeFileDB.getModelBackupFilePathBase o) fs := by
  simp [ModeFileDB.write, h]

/-- C7 witness on the empty file system. -/
theorem write_without_backup_chain_fails_witness :
    ModeFileDB.write oD (FridgeState.build CURRENT_VERSION [] []) emptyFS =
      FsResult.err ("Can\x27t perform backup because previous base backup doesn\x27t exist! "
        ++ ModeFileDB.getModelBackupFilePathBase oD) emptyFS :=
  write_without_backup_chain_fails oD (FridgeState.build CURRENT_VERSION [] []) emptyFS rfl

/-- C10: with a default-depth configuration whose file name has no extension
separator, create on an empty target fails with the bad-file-name error, but
only after the backup directory is made and the latest backup is written; the
primary and every other path stay absent. -/
theorem create_without_extension_fails_after_backup (name : String)
    (h : lastDotSplit name = none) :
    ModeFileDB.create (mkOptions name) emptyFS =
      FsResult.err ("BAD BACKUP FILE NAME " ++ name)
        ((emptyFS.mkdirRec (joinP "./localdb/default" "backups")).writeF
          (ModeFileDB.getModelBackupFilePathBase (mkOptions name))
          (serializeString (FridgeState.build CURRENT_VERSION [] []))) ∧
    (ModeFileDB.create (mkOptions name) emptyFS).state.dirs
      (joinP "./localdb/default" "backups") = true ∧
    (ModeFileDB.create (mkOptions name) emptyFS).state.files
      (ModeFileDB.getModelBackupFilePathBase (mkOptions name)) =
      some (serializeString (FridgeState.build CURRENT_VERSION [] [])) ∧
    ∀ p, p ≠ ModeFileDB.getModelBackupFilePathBase (mkOptions name) →
      (ModeFileDB.create (mkOptions name) emptyFS).state.files p = none := by
  have hparts : ModeFileDB.getModelFileNameParts (mkOptions name) =
      Except.error ("BAD BACKUP FILE NAME " ++ name) := by
    unfold ModeFileDB.getModelFileNameParts
    rw [show (mkOptions name).dbFileName = name from rfl, h]
  have hmain : ModeFileDB.create (mkOptions name) emptyFS =
      FsResult.err ("BAD BACKUP FILE NAME " ++ name)
        ((emptyFS.mkdirRec (joinP "./localdb/default" "backups")).writeF
          (ModeFileDB.getModelBackupFilePathBase (mkOptions name))
          (serializeString (FridgeState.build CURRENT_VERSION [] []))) := by
    have hbf : (mkOptions name).baseFolder = "./localdb/default" := rfl
    have hbn : (mkOptions name).backupsFolderName = "backups" := rfl
    have hcount : (mkOptions name).localBackupCount = 3 := rfl
    have hdown : ModeFileDB.downIdx 3 = [2, 1] := rfl
    simp [ModeFileDB.create, ModeFileDB.shiftBackupFiles, hcount, hdown, ModeFileDB.shiftLoop,
      ModeFileDB.getModelBackupFilePathIdx, hparts, FS.hasFile, FS.writeF, FS.mkdirRec,
      emptyFS, serializeString, hbf, hbn]
  refine ⟨hmain, ?_, ?_, ?_⟩
  · rw [hmain]
    simp [FsResult.state, FS.writeF, FS.mkdirRec]
  · rw [hmain]
    simp [FsResult.state, FS.writeF]
  · intro p hp
    rw [hmain]
    simp [FsResult.state, FS.writeF, FS.mkdirRec, emptyFS, hp]

/-- C10 witness at the file name noext. -/
theorem create_without_extension_fails_after_backup_witness :
    (ModeFileDB.create (mkOptions "noext") emptyFS).state.files
      (ModeFileDB.getModelFilePath (mkOptions "noext")) = none ∧
    (ModeFileDB.create (mkOptions "noext") emptyFS).state.files
      (ModeFileDB.getModelBackupFilePathBase (mkOptions "noext")) =
      some (serializeString (FridgeState.build CURRENT_VERSION [] [])) ∧
    (ModeFileDB.create (mkOptions "noext") emptyFS).state.dirs
      (joinP "./localdb/default" "backups") = true ∧
    (ModeFileDB.create (mkOptions "noext") emptyFS).isOk = false := by
  have h := create_without_extension_fails_after_backup "noext" (by decide)
  refine ⟨h.2.2.2 _ (by decide), h.2.2.1, h.2.1, ?_⟩
  rw [h.1]
  rfl

/-- A one-reference store used by the concrete end-to-end runs. -/
def oneRefStore (id : String) : FridgeState :=
  FridgeState.build CURRENT_VERSION [⟨id, "t", ""⟩] []

/-- C1 counterexample: on the default configuration, after create and four
writes of stores with pairwise distinct serializations C1..C4, generation 0
holds C4 (the content of the fourth write), not C3 as the claim states. -/
theorem end_to_end_gen0_holds_newest :
    (createThenWrites oD [oneRefStore "a", oneRefStore "b", oneRefStore "c", oneRefStore "d"]).state.files
      (pGen 0) = some (serializeString (oneRefStore "d")) ∧
    serializeString (oneRefStore "d") ≠ serializeString (oneRefStore "c") ∧
    (createThenWrites oD [oneRefStore "a", oneRefStore "b", oneRefStore "c", oneRefStore "d"]).isOk
      = true :=
  ⟨rfl, by decide, rfl⟩

/-- C1 amended: with backup depth 3 (default configuration) on an empty
target, after create and four writes with distinct contents C1..C4,
generation 0 holds C4, generation 1 holds C3, generation 2 holds C2, and the
primary and latest-backup files hold C4. -/
theorem end_to_end_backup_rotation (s1 s2 s3 s4 : FridgeState)
    (h12 : serializeString s1 ≠ serializeString s2)
    (h13 : serializeString s1 ≠ serializeString s3)
    (h14 : serializeString s1 ≠ serializeString s4)
    (h23 : serializeString s2 ≠ serializeString s3)
    (h24 : serializeString s2 ≠ serializeString s4)
    (h34 : serializeString s3 ≠ serializeString s4) :
    (createThenWrites oD [s1, s2, s3, s4]).isOk = true ∧
    (createThenWrites oD [s1, s2, s3, s4]).state.files (pGen 0) = some (serializeString s4) ∧
    (createThenWrites oD [s1, s2, s3, s4]).state.files (pGen 1) = some (serializeString s3) ∧
    (createThenWrites oD [s1, s2, s3, s4]).state.files (pGen 2) = some (serializeString s2) ∧
    (createThenWrites oD [s1, s2, s3, s4]).state.files pPrim = some (serializeString s4) ∧
    (createThenWrites oD [s1, s2, s3, s4]).state.files pLatest = some (serializeString s4) :=
  ⟨rfl, rfl, rfl, rfl, rfl, rfl⟩

/-- C1 amended witness at four concrete stores. -/
theorem end_to_end_backup_rotation_witness :
    (createThenWrites oD [oneRefStore "e", oneRefStore "f", oneRefStore "g", oneRefStore "h"]).isOk
      = true ∧
    (createThenWrites oD [oneRefStore "e", oneRefStore "f", oneRefStore "g", oneRefStore "h"]).state.files
      (pGen 0) = some (serializeString (oneRefStore "h")) ∧
    (createThenWrites oD [oneRefStore "e", oneRefStore "f", oneRefStore "g", oneRefStore "h"]).state.files
      (pGen 1) = some (serializeString (oneRefStore "g")) ∧
    (createThenWrites oD [oneRefStore "e", oneRefStore "f", oneRefStore "g", oneRefStore "h"]).state.files
      (pGen 2) = some (serializeString (oneRefStore "f")) ∧
    (createThenWrites oD [oneRefStore "e", oneRefStore "f", oneRefStore "g", oneRefStore "h"]).state.files
      pPrim = some (serializeString (oneRefStore "h")) ∧
    (createThenWrites oD [oneRefStore "e", oneRefStore "f", oneRefStore "g", oneRefStore "h"]).state.files
      pLatest = some (serializeString (oneRefStore "h")) :=
  end_to_end_backup_rotation (oneRefStore "e") (oneRefStore "f") (oneRefStore "g") (oneRefStore "h")
    (by decide) (by decide) (by decide) (by decide) (by decide) (by decide)

/-- A file system holding only a latest backup with content OLD. -/
def fsOld : FS := emptyFS.writeF pLatest "OLD"

/-- C2 counterexample: a successful write leaves generation 0 holding the
newly written content rather than the content that was in the latest-backup
slot immediately before the write began. -/
theorem write_gen0_not_previous_latest :
    (ModeFileDB.write oD (FridgeState.build CURRENT_VERSION [] []) fsOld).isOk = true ∧
    fsOld.files pLatest = some "OLD" ∧
    (ModeFileDB.write oD (FridgeState.build CURRENT_VERSION [] []) fsOld).state.files (pGen 0) ≠
      some "OLD" :=
  ⟨rfl, rfl, by decide⟩

/-- C2 amended: after any successful write on the default configuration, the
primary file, the latest backup and generation 0 all hold the serialization
of the written store, and whatever generation 0 held immediately before the
write has moved to generation 1. -/
theorem write_invariant_default (st : FridgeState) (fs : FS)
    (h : fs.hasFile pLatest = true) :
    (ModeFileDB.write oD st fs).isOk = true ∧
    (ModeFileDB.write oD st fs).state.files pPrim = some (serializeString st) ∧
    (ModeFileDB.write oD st fs).state.files pLatest = some (serializeString st) ∧
    (ModeFileDB.write oD st fs).state.files (pGen 0) = some (serializeString st) ∧
    ∀ c0, fs.files (pGen 0) = some c0 →
      (ModeFileDB.write oD st fs).state.files (pGen 1) = some c0 := by
  have eB : ModeFileDB.getModelBackupFilePathBase oD = pLatest := rfl
  have eP : ModeFileDB.getModelFilePath oD = pPrim := rfl
  have e0 : ModeFileDB.getModelBackupFilePathIdx oD 0 = Except.ok (pGen 0) := rfl
  have e1 : ModeFileDB.getModelBackupFilePathIdx oD 1 = Except.ok (pGen 1) := rfl
  have e2 : ModeFileDB.getModelBackupFilePathIdx oD 2 = Except.ok (pGen 2) := rfl
  have hcnt : oD.localBackupCount = 3 := rfl
  have hdown : ModeFileDB.downIdx 3 = [2, 1] := rfl
  have nP0 : pPrim ≠ pGen 0 := by decide
  have nP1 : pPrim ≠ pGen 1 := by decide
  have nP2 : pPrim ≠ pGen 2 := by decide
  have nPL : pPrim ≠ pLatest := by decide
  have nL0 : pLatest ≠ pGen 0 := by decide
  have nL1 : pLatest ≠ pGen 1 := by decide
  have nL2 : pLatest ≠ pGen 2 := by decide
  have n01 : pGen 0 ≠ pGen 1 := by decide
  have n02 : pGen 0 ≠ pGen 2 := by decide
  have n12 : pGen 1 ≠ pGen 2 := by decide
  obtain ⟨cl, hcl⟩ := Option.isSome_iff_exists.mp h
  cases hB : fs.files (pGen 1) with
  | some c1 =>
      cases hA : fs.files (pGen 0) with
      | some c0 =>
          simp [ModeFileDB.write, ModeFileDB.shiftBackupFiles, hcnt, hdown,
            ModeFileDB.shiftLoop, e0, e1, e2, eB, eP, FS.hasFile, FS.writeF, FS.renameF,
            FS.copyF, FsResult.state, FsResult.isOk, h, hcl, hA, hB,
            nP0, nP1, nP2, nPL, nL0, nL1, nL2, n01, n02, n12,
            Ne.symm nP0, Ne.symm nP1, Ne.symm nP2, Ne.symm nPL, Ne.symm nL0, Ne.symm nL1,
            Ne.symm nL2, Ne.symm n01, Ne.symm n02, Ne.symm n12]
      | none =>
          simp [ModeFileDB.write, ModeFileDB.shiftBackupFiles, hcnt, hdown,
            ModeFileDB.shiftLoop, e0, e1, e2, eB, eP, FS.hasFile, FS.writeF, FS.renameF,
            FS.copyF, FsResult.state, FsResult.isOk, h, hcl, hA, hB,
            nP0, nP1, nP2, nPL, nL0, nL1, nL2, n01, n02, n12,
            Ne.symm nP0, Ne.symm nP1, Ne.symm nP2, Ne.symm nPL, Ne.symm nL0, Ne.symm nL1,
            Ne.symm nL2, Ne.symm n01, Ne.symm n02, Ne.symm n12]
  | none =>
      cases hA : fs.files (pGen 0) with
      | some c0 =>
          simp [ModeFileDB.write, ModeFileDB.shiftBackupFiles, hcnt, hdown,
            ModeFileDB.shiftLoop, e0, e1, e2, eB, eP, FS.hasFile, FS.writeF, FS.renameF,
            FS.copyF, FsResult.state, FsResult.isOk, h, hcl, hA, hB,
            nP0, nP1, nP2, nPL, nL0, nL1, nL2, n01, n02, n12,
            Ne.symm nP0, Ne.symm nP1, Ne.symm nP2, Ne.symm nPL, Ne.symm nL0, Ne.symm nL1,
            Ne.symm nL2, Ne.symm n01, Ne.symm n02, Ne.symm n12]
      | none =>
          simp [ModeFileDB.write, ModeFileDB.shiftBackupFiles, hcnt, hdown,
            ModeFileDB.shiftLoop, e0, e1, e2, eB, eP, FS.hasFile, FS.writeF, FS.renameF,
            FS.copyF, FsResult.state, FsResult.isOk, h, hcl, hA, hB,
            nP0, nP1, nP2, nPL, nL0, nL1, nL2, n01, n02, n12,
            Ne.symm nP0, Ne.symm nP1, Ne.symm nP2, Ne.symm nPL, Ne.symm nL0, Ne.symm nL1,
            Ne.symm nL2, Ne.symm n01, Ne.symm n02, Ne.symm n12]

/-- A file system holding a latest backup OLD and a generation 0 file G0. -/
def fsPre : FS := (emptyFS.writeF pLatest "OLD").writeF (pGen 0) "G0"

/-- C2 amended witness at a concrete pre-state with a populated generation 0. -/
theorem write_invariant_default_witness :
    (ModeFileDB.write oD (oneRefStore "w") fsPre).isOk = true ∧
    (ModeFileDB.write oD (oneRefStore "w") fsPre).state.files pPrim =
      some (serializeString (oneRefStore "w")) ∧
    (ModeFileDB.write oD (oneRefStore "w") fsPre).state.files pLatest =
      some (serializeString (oneRefStore "w")) ∧
    (ModeFileDB.write oD (oneRefStore "w") fsPre).state.files (pGen 0) =
      some (serializeString (oneRefStore "w")) ∧
    (ModeFileDB.write oD (oneRefStore "w") fsPre).state.files (pGen 1) = some "G0" := by
  have h := write_invariant_default (oneRefStore "w") fsPre rfl
  exact ⟨h.1, h.2.1, h.2.2.1, h.2.2.2.1, h.2.2.2.2 "G0" (by decide)⟩
